import Mathlib

/-
Verification of the domain-tracker status-classification core.

Shallow embedding of `src/domain_tracker/whois_client.py` and
`src/domain_tracker/domain_management.py`.  Python strings are modelled as
`List Char`; Python's `str.lower`/`str.upper` are modelled on the ASCII
range (the only range exercised by the status vocabulary and the domain
grammar).  Fallible ingestion (network errors, malformed JSON) is modelled
by an explicit outcome sum type.
-/

abbrev Chars := List Char

/-- Characters of a Lean string literal, used to write Python string
literals from the source. -/
def chars (s : String) : Chars := s.data

/-- Whitespace set of Python's `str.strip()` / `str.split()` (ASCII part). -/
def isPyWs (c : Char) : Bool := decide (c ∈ chars " \t\n\r\x0b\x0c")

/-- Python `s.strip()`: drop leading and trailing whitespace. -/
def pyStrip (s : Chars) : Chars :=
  ((s.dropWhile isPyWs).reverse.dropWhile isPyWs).reverse

/-- Case-mapping helper: first matching key wins, otherwise the character
is unchanged. -/
def applyTable : List (Char × Char) → Char → Char
  | [], c => c
  | (k, v) :: rest, c => if c = k then v else applyTable rest c

def lowerTable : List (Char × Char) :=
  [('A','a'),('B','b'),('C','c'),('D','d'),('E','e'),('F','f'),('G','g'),
   ('H','h'),('I','i'),('J','j'),('K','k'),('L','l'),('M','m'),('N','n'),
   ('O','o'),('P','p'),('Q','q'),('R','r'),('S','s'),('T','t'),('U','u'),
   ('V','v'),('W','w'),('X','x'),('Y','y'),('Z','z')]

def upperTable : List (Char × Char) :=
  [('a','A'),('b','B'),('c','C'),('d','D'),('e','E'),('f','F'),('g','G'),
   ('h','H'),('i','I'),('j','J'),('k','K'),('l','L'),('m','M'),('n','N'),
   ('o','O'),('p','P'),('q','Q'),('r','R'),('s','S'),('t','T'),('u','U'),
   ('v','V'),('w','W'),('x','X'),('y','Y'),('z','Z')]

/-- Python `str.lower` on one character (ASCII range). -/
def pyLowerChar (c : Char) : Char := applyTable lowerTable c

/-- Python `str.upper` on one character (ASCII range). -/
def pyUpperChar (c : Char) : Char := applyTable upperTable c

/-- Python `s.lower()`. -/
def pyLower (s : Chars) : Chars := s.map pyLowerChar

/-- Python `s.upper()`. -/
def pyUpper (s : Chars) : Chars := s.map pyUpperChar

/-- Worker for `splitWs`; `cur` is the reversed current token. -/
def splitWsAux (cur : Chars) : Chars → List Chars
  | [] => if cur = [] then [] else [cur.reverse]
  | c :: cs =>
    if isPyWs c then
      if cur = [] then splitWsAux [] cs else cur.reverse :: splitWsAux [] cs
    else splitWsAux (c :: cur) cs

/-- Python `s.split()` (no separator): split on runs of whitespace,
producing no empty tokens. -/
def splitWs (s : Chars) : List Chars := splitWsAux [] s

/-- Python `s.split(sep)` for a one-character separator: keeps empty
pieces, so the result is always non-empty. -/
def splitOn (sep : Char) : Chars → List Chars
  | [] => [[]]
  | c :: cs =>
    if c = sep then [] :: splitOn sep cs
    else
      match splitOn sep cs with
      | [] => [[c]]
      | p :: ps => (c :: p) :: ps

/-- Python `s.strip("()")`: drop leading and trailing `(` / `)`. -/
def stripParens (s : Chars) : Chars :=
  ((s.dropWhile fun c => decide (c = '(' ∨ c = ')')).reverse.dropWhile
    (fun c => decide (c = '(' ∨ c = ')'))).reverse

/-- Python `s.replace(ch, "")`: remove every occurrence of `ch`. -/
def removeChar (ch : Char) (s : Chars) : Chars := s.filter (fun c => decide (c ≠ ch))

/- ----------------------------------------------------------------- -/
/- whois_client.py: constant tables                                   -/
/- ----------------------------------------------------------------- -/

/-- `PROBLEMATIC_DOMAIN_STATUSES` from whois_client.py (the set literal;
duplicate entries of the Python literal collapse under set semantics). -/
def PROBLEMATIC_DOMAIN_STATUSES : List Chars :=
  [chars "pendingdelete", chars "redemptionperiod", chars "renewperiod",
   chars "clienthold", chars "serverhold",
   chars "transferperiod", chars "pendingtransfer",
   chars "clienttransferprohibited", chars "servertransferprohibited",
   chars "clientdeleteprohibited", chars "serverdeleteprohibited",
   chars "clientupdateprohibited", chars "serverupdateprohibited",
   chars "registrantverificationpending", chars "pendingverification",
   chars "pendingnotification", chars "addperiod", chars "autorenewperiod",
   chars "pendingcreate", chars "pendingupdate", chars "pendingrenew",
   chars "pendingrelease", chars "pendingrebill", chars "pendingrestore"]

/-- `PROBLEMATIC_KEYWORDS` from whois_client.py.  Python iterates this as a
set in an implementation-defined but (per run) fixed order; the embedding
fixes the source listing order. -/
def PROBLEMATIC_KEYWORDS : List Chars :=
  [chars "pending", chars "hold", chars "prohibited", chars "redemption",
   chars "grace", chars "locked", chars "suspended", chars "expired",
   chars "quarantine", chars "frozen"]

/-- `status_mapping` inside `_normalize_status_name`. -/
def STATUS_MAPPING : List (Chars × Chars) :=
  [(chars "pendingdelete", chars "pendingDelete"),
   (chars "redemptionperiod", chars "redemptionPeriod"),
   (chars "clienthold", chars "clientHold"),
   (chars "serverhold", chars "serverHold"),
   (chars "renewperiod", chars "renewPeriod"),
   (chars "transferperiod", chars "transferPeriod")]

/-- Python `dict.get(key, default)` over an association list. -/
def lookupMapping : List (Chars × Chars) → Chars → Option Chars
  | [], _ => none
  | (k, v) :: rest, key => if key = k then some v else lookupMapping rest key

/-- `_normalize_status_name` from whois_client.py. -/
def normalize_status_name (status : Chars) : Chars :=
  match lookupMapping STATUS_MAPPING (removeChar ' ' (pyLower status)) with
  | some v => v
  | none => status

/- ----------------------------------------------------------------- -/
/- whois_client.py: _parse_status_string                              -/
/- ----------------------------------------------------------------- -/

/-- Python `needle in haystack` prerequisite: list-prefix test. -/
def isPrefixOfB : Chars → Chars → Bool
  | [], _ => true
  | _ :: _, [] => false
  | a :: as, b :: bs => decide (a = b) && isPrefixOfB as bs

/-- Python substring test `needle in haystack`. -/
def isSubstrB (needle : Chars) : Chars → Bool
  | [] => isPrefixOfB needle []
  | c :: rest => isPrefixOfB needle (c :: rest) || isSubstrB needle rest

/-- Loop body of `_parse_status_string`: iterate over the
whitespace-split parts, skipping URLs (prefix `http`) and parts that are
empty after stripping parentheses. -/
def parseLoop : List Chars → List Chars
  | [] => []
  | part :: rest =>
    if isPrefixOfB (chars "http") part || pyStrip part = [] then parseLoop rest
    else if stripParens part = [] then parseLoop rest
    else stripParens part :: parseLoop rest

/-- `_parse_status_string` from whois_client.py. -/
def _parse_status_string (status_string : Chars) : List Chars :=
  if status_string = [] then []
  else parseLoop (splitWs status_string)

/- ----------------------------------------------------------------- -/
/- whois_client.py: _extract_problematic_statuses                     -/
/- ----------------------------------------------------------------- -/

/-- The normalization applied to one stripped status token inside
`_extract_problematic_statuses` (lines 312-323): lowercase, truncate at
the first `(` (Python `split("(")[0]` is the prefix before the first `(`)
and strip again, then remove spaces, hyphens, underscores. -/
def normalizeStatus (status_str : Chars) : Chars :=
  removeChar '_' (removeChar '-' (removeChar ' '
    (if '(' ∈ pyLower status_str
     then pyStrip ((pyLower status_str).takeWhile fun c => decide (c ≠ '('))
     else pyLower status_str)))

/-- The full per-token normalization (strip, then `normalizeStatus`) as
described in the spec's `normalize` operation. -/
def normalizeRaw (x : Chars) : Chars := normalizeStatus (pyStrip x)

/-- Keyword-specific display-name resolution (the body of the keyword
loop in `_extract_problematic_statuses`).  `keyword.title()` for the
single-word keywords is first-letter-uppercase, rest lowercase. -/
def keywordDisplay (status_lower : Chars) (keyword : Chars) : Chars :=
  if keyword = chars "pending" ∧ isSubstrB (chars "delete") status_lower then
    chars "pendingDelete"
  else if keyword = chars "hold" then
    if isSubstrB (chars "client") status_lower then chars "clientHold"
    else if isSubstrB (chars "server") status_lower then chars "serverHold"
    else chars "hold"
  else if keyword = chars "redemption" then chars "redemptionPeriod"
  else if keyword = chars "prohibited" then
    if isSubstrB (chars "transfer") status_lower then chars "transferProhibited"
    else if isSubstrB (chars "delete") status_lower then chars "deleteProhibited"
    else if isSubstrB (chars "update") status_lower then chars "updateProhibited"
    else chars "prohibited"
  else
    match keyword with
    | [] => []
    | c :: rest => pyUpperChar c :: rest.map pyLowerChar

/-- The keyword loop with `break`: first keyword of the list that is a
substring of the lowercased token wins. -/
def scanKeywords (status_lower : Chars) : List Chars → Option Chars
  | [] => none
  | k :: ks =>
    if isSubstrB k status_lower then some (keywordDisplay status_lower k)
    else scanKeywords status_lower ks

/-- What the main loop of `_extract_problematic_statuses` appends for one
raw status token (at most one display name). -/
def tokenContribution (status : Chars) : List Chars :=
  if status = [] then []
  else if pyStrip status = [] then []
  else if normalizeStatus (pyStrip status) ∈ PROBLEMATIC_DOMAIN_STATUSES then
    [normalize_status_name (normalizeStatus (pyStrip status))]
  else
    match scanKeywords (pyLower (pyStrip status)) PROBLEMATIC_KEYWORDS with
    | some name => [name]
    | none => []

/-- Final dedup loop of `_extract_problematic_statuses`: keep the first
occurrence of each display name (`seen` models the Python set). -/
def dedupFirstAux (seen : List Chars) : List Chars → List Chars
  | [] => []
  | s :: rest =>
    if s ∈ seen then dedupFirstAux seen rest
    else s :: dedupFirstAux (s :: seen) rest

def dedupFirst (l : List Chars) : List Chars := dedupFirstAux [] l

/-- `_extract_problematic_statuses` from whois_client.py. -/
def _extract_problematic_statuses (domain_statuses : List Chars) : List Chars :=
  dedupFirst ((domain_statuses.map tokenContribution).flatten)

/- ----------------------------------------------------------------- -/
/- whois_client.py: _is_valid_domain_format                           -/
/- ----------------------------------------------------------------- -/

def isAlnumAZ (c : Char) : Bool :=
  decide (c ∈ chars "abcdefghijklmnopqrstuvwxyzABCDEFGHIJKLMNOPQRSTUVWXYZ0123456789")

def isAlphaAZ (c : Char) : Bool :=
  decide (c ∈ chars "abcdefghijklmnopqrstuvwxyzABCDEFGHIJKLMNOPQRSTUVWXYZ")

def isLabelChar (c : Char) : Bool := isAlnumAZ c || decide (c = '-')

/-- One label of the domain regex:
`[a-zA-Z0-9]([a-zA-Z0-9\-]{0,61}[a-zA-Z0-9])?` — equivalently 1-63
characters over alphanumerics and hyphens, starting and ending
alphanumeric. -/
def labelOk : Chars → Bool
  | [] => false
  | c :: rest =>
    decide ((c :: rest).length ≤ 63) && isAlnumAZ c &&
      (c :: rest).all isLabelChar && isAlnumAZ (rest.getLastD c)

/-- TLD part of the regex: `[a-zA-Z]{2,}`. -/
def tldOk (l : Chars) : Bool := decide (2 ≤ l.length) && l.all isAlphaAZ

/-- `domain_format_pattern.match`: label, further labels, dot, TLD.
Matching the anchored regex is equivalent to: split on `.`, at least two
pieces, all but the last are labels, the last is a TLD. -/
def domainPatternMatch (d : Chars) : Bool :=
  match (splitOn '.' d).getLast? with
  | none => false
  | some tld =>
    decide (2 ≤ (splitOn '.' d).length) &&
      (splitOn '.' d).dropLast.all labelOk && tldOk tld

def headIsDot : Chars → Bool
  | [] => false
  | c :: _ => decide (c = '.')

def lastIsDot (s : Chars) : Bool := headIsDot s.reverse

/-- `MAX_DOMAIN_LENGTH` from whois_client.py. -/
def MAX_DOMAIN_LENGTH : Nat := 253

/-- `_is_valid_domain_format` from whois_client.py. -/
def _is_valid_domain_format (domain : Chars) : Bool :=
  if domain = [] then false
  else if (pyStrip domain).length = 0 ∨ MAX_DOMAIN_LENGTH < (pyStrip domain).length
    then false
  else if headIsDot (pyStrip domain) ∨ lastIsDot (pyStrip domain) then false
  else if '.' ∉ pyStrip domain then false
  else domainPatternMatch (pyStrip domain)

/- ----------------------------------------------------------------- -/
/- domain_management.py: _is_valid_domain                             -/
/- ----------------------------------------------------------------- -/

/-- `_is_valid_domain` from domain_management.py: same regex, then a
40-character practical cap, dot checks, and explicit 1-63 length check
on every dot-separated label (TLD included). -/
def _is_valid_domain (domain : Chars) : Bool :=
  if ¬ domainPatternMatch domain then false
  else if 40 < domain.length then false
  else if '.' ∉ domain then false
  else if headIsDot domain ∨ lastIsDot domain then false
  else (splitOn '.' domain).all fun label =>
    decide (1 ≤ label.length) && decide (label.length ≤ 63)

/- ----------------------------------------------------------------- -/
/- whois_client.py: response model and the two entry points           -/
/- ----------------------------------------------------------------- -/

/-- The `status` field of a parsed record: absent key, JSON null, a
combined string, or a list of tokens.  (`.get("status", "")` yields `""`
for an absent key and `None` for a null value; both are falsy.) -/
inductive StatusField
  | missing
  | null
  | strF (s : Chars)
  | listF (l : List Chars)

/-- Tokens contributed to `all_statuses` by one status field: a truthy
string is split by `_parse_status_string`, a truthy list is extended
verbatim, falsy values are skipped. -/
def statusTokens : StatusField → List Chars
  | .missing => []
  | .null => []
  | .strF s => if s = [] then [] else _parse_status_string s
  | .listF l => if l = [] then [] else l

/-- The parts of a parsed `WhoisRecord` JSON object that the
classification logic reads.  `registryDataError` / `registryStatus` are
the `dataError` / `status` fields of `WhoisRecord.registryData`.  Absent
and null scalar fields are both modelled as `none` (they are
indistinguishable to every comparison the code performs). -/
structure WhoisRecord where
  dataError : Option Chars
  registryDataError : Option Chars
  domainAvailability : Option Chars
  status : StatusField
  registryStatus : StatusField

/-- The classification part of `check_domain_status_detailed`
(whois_client.py lines 190-267), applied once a response has been parsed. -/
def check_domain_status_core (r : WhoisRecord) : Bool × List Chars :=
  if r.dataError = some (chars "MISSING_WHOIS_DATA") then (true, [])
  else if r.dataError = some (chars "NO_DATA") ∨
      r.dataError = some (chars "INCOMPLETE_DATA") then (false, [chars "dataError"])
  else if r.registryDataError = some (chars "NO_DATA") ∨
      r.registryDataError = some (chars "INCOMPLETE_DATA") then
    (false, [chars "registryDataError"])
  else if pyUpper (r.domainAvailability.getD []) ≠ chars "AVAILABLE" then (false, [])
  else
    (decide ((_extract_problematic_statuses
        (statusTokens r.status ++ statusTokens r.registryStatus)).length = 0),
     _extract_problematic_statuses
        (statusTokens r.status ++ statusTokens r.registryStatus))

/-- Outcome of the lookup attempt before classification: transport
failure (timeout / connection error / non-2xx via `raise_for_status`),
unparseable JSON, any other unexpected exception, or a parsed record. -/
inductive LookupOutcome
  | networkError
  | invalidJson
  | unexpectedError
  | parsed (r : WhoisRecord)

/-- `check_domain_status_detailed` from whois_client.py: format guard,
then the error taxonomy, then classification.  Totality of this Lean
function models "never raises to the caller". -/
def check_domain_status_detailed (domain : Chars) (outcome : LookupOutcome) :
    Bool × List Chars :=
  if ¬ _is_valid_domain_format domain then (false, [])
  else
    match outcome with
    | .parsed r => check_domain_status_core r
    | _ => (false, [])

/-- The fields of the `DomainInfo` dataclass that the classification
logic determines (registrant / registrar / date metadata fields are
extracted independently and are not read by any claim). -/
structure DomainInfo where
  domain_name : Chars
  is_available : Bool
  problematic_statuses : List Chars
  has_error : Bool

/-- The classification part of `get_enhanced_domain_info`
(whois_client.py lines 511-599), applied once a response has been
parsed.  Note: no `.upper()` on the availability flag here, and the
status classification runs regardless of the flag. -/
def get_enhanced_domain_info_core (domain : Chars) (r : WhoisRecord) : DomainInfo :=
  if r.dataError = some (chars "MISSING_WHOIS_DATA") then
    ⟨domain, true, [], false⟩
  else if r.dataError = some (chars "NO_DATA") ∨
      r.dataError = some (chars "INCOMPLETE_DATA") then
    ⟨domain, false, [chars "dataError"], true⟩
  else if r.registryDataError = some (chars "NO_DATA") ∨
      r.registryDataError = some (chars "INCOMPLETE_DATA") then
    ⟨domain, false, [chars "registryDataError"], true⟩
  else
    ⟨domain,
     decide (r.domainAvailability.getD (chars "UNAVAILABLE") = chars "AVAILABLE") &&
       decide ((_extract_problematic_statuses
         (statusTokens r.status ++ statusTokens r.registryStatus)).length = 0),
     _extract_problematic_statuses
       (statusTokens r.status ++ statusTokens r.registryStatus),
     false⟩

/-- `get_enhanced_domain_info` from whois_client.py: transport and
parsing failures yield a conservative error record. -/
def get_enhanced_domain_info (domain : Chars) (outcome : LookupOutcome) : DomainInfo :=
  match outcome with
  | .parsed r => get_enhanced_domain_info_core domain r
  | _ => ⟨domain, false, [], true⟩

/- ----------------------------------------------------------------- -/
/- Helper lemmas                                                      -/
/- ----------------------------------------------------------------- -/

def isUpperAZ (c : Char) : Bool := decide (c ∈ chars "ABCDEFGHIJKLMNOPQRSTUVWXYZ")

theorem applyTable_eq_self {t : List (Char × Char)} {Q : Char → Bool}
    (hk : ∀ kv ∈ t, Q kv.1 = true) {c : Char} (hc : Q c = false) :
    applyTable t c = c := by
  induction t with
  | nil => rfl
  | cons kv rest ih =>
    obtain ⟨k, v⟩ := kv
    show (if c = k then v else applyTable rest c) = c
    rw [if_neg, ih fun kv hkv => hk kv (List.mem_cons_of_mem _ hkv)]
    intro hck
    rw [hck] at hc
    rw [hk (k, v) (List.mem_cons_self _ _)] at hc
    cases hc

theorem pyLowerChar_eq_self {c : Char} (h : isUpperAZ c = false) :
    pyLowerChar c = c :=
  applyTable_eq_self (by decide) h

/-- Preservation of a character predicate by `pyLowerChar`: it suffices to
check the 26 uppercase letters. -/
theorem pyLowerChar_pred (P : Char → Bool)
    (hP : ∀ c ∈ chars "ABCDEFGHIJKLMNOPQRSTUVWXYZ", P (pyLowerChar c) = P c)
    (c : Char) : P (pyLowerChar c) = P c := by
  by_cases h : isUpperAZ c = true
  · exact hP c (by simpa [isUpperAZ] using h)
  · rw [pyLowerChar_eq_self (by simpa using h)]

theorem pyLowerChar_ws (c : Char) : isPyWs (pyLowerChar c) = isPyWs c :=
  pyLowerChar_pred isPyWs (by decide) c

theorem pyLowerChar_dot (c : Char) : (pyLowerChar c = '.') ↔ (c = '.') :=
  decide_eq_decide.mp (pyLowerChar_pred (fun d => decide (d = '.')) (by decide) c)

theorem pyLowerChar_alnum (c : Char) : isAlnumAZ (pyLowerChar c) = isAlnumAZ c :=
  pyLowerChar_pred isAlnumAZ (by decide) c

theorem pyLowerChar_alpha (c : Char) : isAlphaAZ (pyLowerChar c) = isAlphaAZ c :=
  pyLowerChar_pred isAlphaAZ (by decide) c

theorem pyLowerChar_label (c : Char) : isLabelChar (pyLowerChar c) = isLabelChar c :=
  pyLowerChar_pred isLabelChar (by decide) c

theorem pyLowerChar_not_upper (c : Char) : isUpperAZ (pyLowerChar c) = false := by
  by_cases h : isUpperAZ c = true
  · exact (by decide : ∀ d ∈ chars "ABCDEFGHIJKLMNOPQRSTUVWXYZ",
      isUpperAZ (pyLowerChar d) = false) c (by simpa [isUpperAZ] using h)
  · rw [pyLowerChar_eq_self (by simpa using h)]
    simpa using h

theorem mem_of_mem_pyStrip {c : Char} {s : Chars} (h : c ∈ pyStrip s) : c ∈ s := by
  unfold pyStrip at h
  rw [List.mem_reverse] at h
  have h2 := (List.dropWhile_sublist _).subset h
  rw [List.mem_reverse] at h2
  exact (List.dropWhile_sublist _).subset h2

theorem mem_removeChar {a ch : Char} {s : Chars} :
    a ∈ removeChar ch s ↔ a ∈ s ∧ a ≠ ch := by
  simp [removeChar]

theorem map_id_of_fix {f : Char → Char} {l : Chars} (h : ∀ c ∈ l, f c = c) :
    l.map f = l := by
  induction l with
  | nil => rfl
  | cons a t ih =>
    rw [List.map_cons, h a (by simp), ih fun c hc => h c (List.mem_cons_of_mem _ hc)]

theorem all_ext {p q : α → Bool} (h : ∀ a, p a = q a) (l : List α) :
    l.all p = l.all q := by
  induction l <;> simp_all

theorem dropWhile_id_of {p : α → Bool} {l : List α} (h : ∀ c ∈ l, p c = false) :
    l.dropWhile p = l := by
  cases l with
  | nil => rfl
  | cons a t => rw [List.dropWhile_cons_of_neg (by simp [h a (by simp)])]

theorem pyStrip_of_noWs {t : Chars} (h : ∀ c ∈ t, isPyWs c = false) : pyStrip t = t := by
  unfold pyStrip
  rw [dropWhile_id_of h, dropWhile_id_of (fun c hc => h c (List.mem_reverse.mp hc)),
    List.reverse_reverse]

/- Members of the intermediate strings of `normalizeStatus`. -/

theorem mem_normalizeStatus {c : Char} {s : Chars} (h : c ∈ normalizeStatus s) :
    c ∈ pyLower s ∧ c ≠ ' ' ∧ c ≠ '-' ∧ c ≠ '_' := by
  unfold normalizeStatus at h
  obtain ⟨h1, hu⟩ := mem_removeChar.mp h
  obtain ⟨h2, hh⟩ := mem_removeChar.mp h1
  obtain ⟨h3, hs⟩ := mem_removeChar.mp h2
  refine ⟨?_, hs, hh, hu⟩
  split at h3
  · exact (List.takeWhile_sublist _).subset (mem_of_mem_pyStrip h3)
  · exact h3

theorem mem_normalizeStatus_no_paren {s : Chars} : '(' ∉ normalizeStatus s := by
  intro h
  unfold normalizeStatus at h
  obtain ⟨h1, _⟩ := mem_removeChar.mp h
  obtain ⟨h2, _⟩ := mem_removeChar.mp h1
  obtain ⟨h3, _⟩ := mem_removeChar.mp h2
  split at h3
  · have := List.mem_takeWhile_imp (mem_of_mem_pyStrip h3)
    simp at this
  · next hnp => exact hnp h3

theorem mem_normalizeStatus_not_upper {c : Char} {s : Chars}
    (h : c ∈ normalizeStatus s) : isUpperAZ c = false := by
  have h1 := (mem_normalizeStatus h).1
  obtain ⟨a, _, rfl⟩ := List.mem_map.mp h1
  exact pyLowerChar_not_upper a

/- Commutation of the validator pipeline with ASCII lowercasing. -/

theorem pyStrip_map_lower (s : Chars) :
    pyStrip (s.map pyLowerChar) = (pyStrip s).map pyLowerChar := by
  have hf : (isPyWs ∘ pyLowerChar) = isPyWs := funext pyLowerChar_ws
  unfold pyStrip
  rw [List.dropWhile_map, hf, ← List.map_reverse, List.dropWhile_map, hf,
    ← List.map_reverse]

theorem splitOn_dot_map (s : Chars) :
    splitOn '.' (s.map pyLowerChar) = (splitOn '.' s).map (List.map pyLowerChar) := by
  induction s with
  | nil => rfl
  | cons c cs ih =>
    rw [List.map_cons]
    show (if pyLowerChar c = '.' then [] :: splitOn '.' (cs.map pyLowerChar)
        else match splitOn '.' (cs.map pyLowerChar) with
          | [] => [[pyLowerChar c]]
          | p :: ps => (pyLowerChar c :: p) :: ps) =
      ((if c = '.' then [] :: splitOn '.' cs
        else match splitOn '.' cs with
          | [] => [[c]]
          | p :: ps => (c :: p) :: ps) : List Chars).map (List.map pyLowerChar)
    by_cases h : c = '.'
    · rw [if_pos (pyLowerChar_dot c |>.mpr h), if_pos h, ih, List.map_cons]
      rfl
    · rw [if_neg (fun hh => h (pyLowerChar_dot c |>.mp hh)), if_neg h, ih]
      cases splitOn '.' cs with
      | nil => rfl
      | cons p ps => rfl

theorem getLastD_map (f : Char → Char) (l : Chars) (d : Char) :
    (l.map f).getLastD (f d) = f (l.getLastD d) := by
  rw [List.getLastD_eq_getLast?, List.getLastD_eq_getLast?, List.getLast?_map]
  cases l.getLast? <;> rfl

theorem labelOk_map (p : Chars) : labelOk (p.map pyLowerChar) = labelOk p := by
  cases p with
  | nil => rfl
  | cons c rest =>
    show (decide ((pyLowerChar c :: rest.map pyLowerChar).length ≤ 63) &&
        isAlnumAZ (pyLowerChar c) &&
        (pyLowerChar c :: rest.map pyLowerChar).all isLabelChar &&
        isAlnumAZ ((rest.map pyLowerChar).getLastD (pyLowerChar c))) =
      (decide ((c :: rest).length ≤ 63) && isAlnumAZ c &&
        (c :: rest).all isLabelChar && isAlnumAZ (rest.getLastD c))
    rw [getLastD_map, pyLowerChar_alnum, pyLowerChar_alnum,
      show (pyLowerChar c :: rest.map pyLowerChar) =
        (c :: rest).map pyLowerChar from rfl,
      List.length_map, List.all_map]
    simp only [Function.comp_def]
    rw [all_ext fun a => pyLowerChar_label a]

theorem tldOk_map (l : Chars) : tldOk (l.map pyLowerChar) = tldOk l := by
  unfold tldOk
  rw [List.length_map, List.all_map]
  simp only [Function.comp_def]
  rw [all_ext fun a => pyLowerChar_alpha a]

theorem domainPatternMatch_map (d : Chars) :
    domainPatternMatch (d.map pyLowerChar) = domainPatternMatch d := by
  unfold domainPatternMatch
  rw [splitOn_dot_map, List.getLast?_map]
  cases (splitOn '.' d).getLast? with
  | none => rfl
  | some tld =>
    simp only [Option.map_some']
    rw [List.length_map, tldOk_map, ← List.map_dropLast, List.all_map]
    simp only [Function.comp_def]
    rw [all_ext fun a => labelOk_map a]

theorem headIsDot_map (t : Chars) : headIsDot (t.map pyLowerChar) = headIsDot t := by
  cases t with
  | nil => rfl
  | cons c r =>
    show decide (pyLowerChar c = '.') = decide (c = '.')
    exact decide_eq_decide.mpr (pyLowerChar_dot c)

theorem lastIsDot_map (t : Chars) : lastIsDot (t.map pyLowerChar) = lastIsDot t := by
  unfold lastIsDot
  rw [← List.map_reverse, headIsDot_map]

theorem mem_dot_map (l : Chars) : ('.' ∈ l.map pyLowerChar) ↔ '.' ∈ l := by
  rw [List.mem_map]
  constructor
  · rintro ⟨a, ha, hfa⟩
    rw [← pyLowerChar_dot a |>.mp hfa]
    exact pyLowerChar_dot a |>.mp hfa ▸ ha
  · intro h
    exact ⟨'.', h, by decide⟩

/- splitWs produces non-empty, whitespace-free tokens. -/

theorem splitWsAux_tokens (s : Chars) : ∀ (cur : Chars),
    (∀ c ∈ cur, isPyWs c = false) →
    ∀ t ∈ splitWsAux cur s, t ≠ [] ∧ ∀ c ∈ t, isPyWs c = false := by
  induction s with
  | nil =>
    intro cur hcur t ht
    unfold splitWsAux at ht
    split at ht
    · cases ht
    · next hne =>
      rw [List.mem_singleton] at ht
      subst ht
      exact ⟨by simpa using hne, fun c hc => hcur c (List.mem_reverse.mp hc)⟩
  | cons a s ih =>
    intro cur hcur t ht
    unfold splitWsAux at ht
    split at ht
    · split at ht
      · exact ih [] (by simp) t ht
      · next hne =>
        rcases List.mem_cons.mp ht with h | h
        · subst h
          exact ⟨by simpa using hne, fun c hc => hcur c (List.mem_reverse.mp hc)⟩
        · exact ih [] (by simp) t h
    · next hws =>
      refine ih (a :: cur) ?_ t ht
      intro c hc
      rcases List.mem_cons.mp hc with h | h
      · subst h; simpa using hws
      · exact hcur c h

theorem splitWs_tokens {s t : Chars} (ht : t ∈ splitWs s) :
    t ≠ [] ∧ ∀ c ∈ t, isPyWs c = false :=
  splitWsAux_tokens s [] (by simp) t ht

/- `scanKeywords` is first-match-wins over the keyword list. -/

theorem scanKeywords_eq_find (sl : Chars) (ks : List Chars) :
    scanKeywords sl ks =
      (ks.find? fun k => isSubstrB k sl).map (keywordDisplay sl) := by
  induction ks with
  | nil => rfl
  | cons k ks ih =>
    unfold scanKeywords
    by_cases h : isSubstrB k sl = true
    · simp [List.find?_cons, h]
    · rw [Bool.not_eq_true] at h
      simp [List.find?_cons, h, ih]

/- Dedup keeps first occurrences, no duplicates, same membership. -/

theorem mem_dedupFirstAux (x : Chars) (l : List Chars) : ∀ (seen : List Chars),
    x ∈ dedupFirstAux seen l ↔ x ∈ l ∧ x ∉ seen := by
  induction l with
  | nil => intro seen; simp [dedupFirstAux]
  | cons s rest ih =>
    intro seen
    unfold dedupFirstAux
    split
    · next hs =>
      rw [ih seen]
      constructor
      · rintro ⟨h1, h2⟩
        exact ⟨List.mem_cons_of_mem _ h1, h2⟩
      · rintro ⟨h1, h2⟩
        rcases List.mem_cons.mp h1 with h | h
        · subst h; exact absurd hs h2
        · exact ⟨h, h2⟩
    · next hs =>
      rw [List.mem_cons, ih (s :: seen)]
      constructor
      · rintro (h | ⟨h1, h2⟩)
        · subst h; exact ⟨List.mem_cons_self _ _, hs⟩
        · exact ⟨List.mem_cons_of_mem _ h1, fun hx => h2 (List.mem_cons_of_mem _ hx)⟩
      · rintro ⟨h1, h2⟩
        by_cases hx : x = s
        · exact Or.inl hx
        · rcases List.mem_cons.mp h1 with h | h
          · exact absurd h hx
          · refine Or.inr ⟨h, fun hx2 => ?_⟩
            rcases List.mem_cons.mp hx2 with h3 | h3
            · exact hx h3
            · exact h2 h3

theorem nodup_dedupFirstAux (l : List Chars) : ∀ (seen : List Chars),
    (dedupFirstAux seen l).Nodup := by
  induction l with
  | nil => intro seen; simp [dedupFirstAux]
  | cons s rest ih =>
    intro seen
    unfold dedupFirstAux
    split
    · exact ih seen
    · refine List.Nodup.cons ?_ (ih (s :: seen))
      intro hmem
      exact ((mem_dedupFirstAux s rest (s :: seen)).mp hmem).2 (List.mem_cons_self _ _)

theorem nodup_dedupFirst (l : List Chars) : (dedupFirst l).Nodup :=
  nodup_dedupFirstAux l []

theorem mem_dedupFirst (x : Chars) (l : List Chars) : x ∈ dedupFirst l ↔ x ∈ l := by
  rw [dedupFirst, mem_dedupFirstAux]
  simp

/-- Index of the first occurrence of `x` in `v` (length of `v` when
absent). -/
def firstPos (v : List Chars) (x : Chars) : Nat :=
  v.findIdx fun a => decide (a = x)

theorem firstPos_cons_self (t : List Chars) (x : Chars) :
    firstPos (x :: t) x = 0 := by
  unfold firstPos
  rw [List.findIdx_cons]
  simp

theorem firstPos_cons_ne {s x : Chars} (t : List Chars) (h : x ≠ s) :
    firstPos (s :: t) x = firstPos t x + 1 := by
  unfold firstPos
  rw [List.findIdx_cons]
  have hd : decide (s = x) = false := decide_eq_false fun he => h he.symm
  rw [hd]
  rfl

/-- The dedup loop emits kept names in strictly increasing order of their
first occurrence in the input list. -/
theorem pairwise_dedupFirstAux (l : List Chars) : ∀ seen : List Chars,
    (dedupFirstAux seen l).Pairwise fun x y => firstPos l x < firstPos l y := by
  induction l with
  | nil => intro seen; simp [dedupFirstAux]
  | cons s rest ih =>
    intro seen
    unfold dedupFirstAux
    split
    · next hs =>
      refine List.Pairwise.imp_of_mem ?_ (ih seen)
      intro x y hx hy hlt
      have hxs : x ≠ s := fun he =>
        ((mem_dedupFirstAux x rest seen).mp hx).2 (by rw [he]; exact hs)
      have hys : y ≠ s := fun he =>
        ((mem_dedupFirstAux y rest seen).mp hy).2 (by rw [he]; exact hs)
      rw [firstPos_cons_ne rest hxs, firstPos_cons_ne rest hys]
      omega
    · next hs =>
      refine List.Pairwise.cons ?_ ?_
      · intro y hy
        have hys : y ≠ s := fun he =>
          ((mem_dedupFirstAux y rest (s :: seen)).mp hy).2
            (by rw [he]; exact List.mem_cons_self s seen)
        rw [firstPos_cons_self, firstPos_cons_ne rest hys]
        omega
      · refine List.Pairwise.imp_of_mem ?_ (ih (s :: seen))
        intro x y hx hy hlt
        have hxs : x ≠ s := fun he =>
          ((mem_dedupFirstAux x rest (s :: seen)).mp hx).2
            (by rw [he]; exact List.mem_cons_self s seen)
        have hys : y ≠ s := fun he =>
          ((mem_dedupFirstAux y rest (s :: seen)).mp hy).2
            (by rw [he]; exact List.mem_cons_self s seen)
        rw [firstPos_cons_ne rest hxs, firstPos_cons_ne rest hys]
        omega

theorem pairwise_dedupFirst (l : List Chars) :
    (dedupFirst l).Pairwise fun x y => firstPos l x < firstPos l y :=
  pairwise_dedupFirstAux l []

/- Characterization of the `_parse_status_string` loop. -/

theorem parseLoop_eq (l : List Chars) (h : ∀ t ∈ l, pyStrip t ≠ []) :
    parseLoop l = l.filterMap fun part =>
      if isPrefixOfB (chars "http") part then none
      else if stripParens part = [] then none else some (stripParens part) := by
  induction l with
  | nil => rfl
  | cons part rest ih =>
    have hps : pyStrip part ≠ [] := h part (List.mem_cons_self _ _)
    have ih2 := ih fun t ht => h t (List.mem_cons_of_mem _ ht)
    by_cases hp : isPrefixOfB (chars "http") part = true
    · simp [parseLoop, List.filterMap_cons, hp, hps, ih2]
    · rw [Bool.not_eq_true] at hp
      by_cases hc : stripParens part = []
      · simp [parseLoop, List.filterMap_cons, hp, hps, hc, ih2]
      · simp [parseLoop, List.filterMap_cons, hp, hps, hc, ih2]

/- The normalization is the identity on already-canonical tokens. -/

theorem normalizeStatus_of_canonical {s : Chars}
    (hup : ∀ c ∈ s, isUpperAZ c = false)
    (hpar : '(' ∉ s)
    (hsep : ∀ c ∈ s, c ≠ ' ' ∧ c ≠ '-' ∧ c ≠ '_') :
    normalizeStatus s = s := by
  have hrm : ∀ (ch : Char) (t : Chars), (∀ c ∈ t, c ≠ ch) → removeChar ch t = t :=
    fun ch t h => List.filter_eq_self.mpr fun a ha => decide_eq_true (h a ha)
  unfold normalizeStatus
  have hlow : pyLower s = s :=
    map_id_of_fix fun c hc => pyLowerChar_eq_self (hup c hc)
  rw [show pyLower s = s from hlow, if_neg hpar,
    hrm ' ' s fun c hc => (hsep c hc).1,
    hrm '-' s fun c hc => (hsep c hc).2.1,
    hrm '_' s fun c hc => (hsep c hc).2.2]

/- Preservation of a leading / trailing dot by `pyStrip`. -/

theorem pyStrip_cons_head {c : Char} {rest : Chars} (hc : isPyWs c = false) :
    ∃ r2 : Chars, pyStrip (c :: rest) = c :: r2 := by
  unfold pyStrip
  rw [List.dropWhile_cons_of_neg (by simp [hc]),
    show (c :: rest).reverse = rest.reverse ++ [c] by simp,
    List.dropWhile_append]
  by_cases he : (rest.reverse.dropWhile isPyWs).isEmpty = true
  · rw [if_pos he, List.dropWhile_cons_of_neg (by simp [hc])]
    exact ⟨[], by simp⟩
  · rw [if_neg he]
    exact ⟨(rest.reverse.dropWhile isPyWs).reverse, by simp⟩

theorem headIsDot_pyStrip {d : Chars} (h : headIsDot d = true) :
    headIsDot (pyStrip d) = true := by
  cases d with
  | nil => cases h
  | cons c rest =>
    have hc : c = '.' := of_decide_eq_true h
    subst hc
    obtain ⟨r2, hr⟩ := @pyStrip_cons_head '.' rest (by decide)
    rw [hr]
    rfl

theorem lastIsDot_pyStrip {d : Chars} (h : lastIsDot d = true) :
    lastIsDot (pyStrip d) = true := by
  unfold lastIsDot at h ⊢
  cases hd : d.reverse with
  | nil => rw [hd] at h; cases h
  | cons c rr =>
    rw [hd] at h
    have hc : c = '.' := of_decide_eq_true h
    subst hc
    have hdd : d = rr.reverse ++ ['.'] := by
      have := congrArg List.reverse hd
      simpa using this
    subst hdd
    show headIsDot (pyStrip (rr.reverse ++ ['.'])).reverse = true
    unfold pyStrip
    rw [List.reverse_reverse, List.dropWhile_append]
    by_cases he : (rr.reverse.dropWhile isPyWs).isEmpty = true
    · rw [if_pos he, List.dropWhile_cons_of_neg (by decide)]
      rfl
    · rw [if_neg he,
        show ((rr.reverse.dropWhile isPyWs) ++ ['.']).reverse =
          '.' :: (rr.reverse.dropWhile isPyWs).reverse by simp,
        List.dropWhile_cons_of_neg (by decide)]
      rfl

/- Soundness of the regex matcher and the validator. -/

theorem domainPatternMatch_sound {d : Chars} (h : domainPatternMatch d = true) :
    2 ≤ (splitOn '.' d).length ∧
    (∀ p ∈ (splitOn '.' d).dropLast, labelOk p = true) ∧
    (∃ t, (splitOn '.' d).getLast? = some t ∧ tldOk t = true) := by
  unfold domainPatternMatch at h
  split at h
  · cases h
  · next tld heq =>
    simp only [Bool.and_eq_true, decide_eq_true_eq] at h
    obtain ⟨⟨hlen, hall⟩, htld⟩ := h
    exact ⟨hlen, fun p hp => List.all_eq_true.mp hall p hp, ⟨tld, heq, htld⟩⟩

theorem valid_format_sound {d : Chars} (h : _is_valid_domain_format d = true) :
    pyStrip d ≠ [] ∧ (pyStrip d).length ≤ 253 ∧
    headIsDot (pyStrip d) = false ∧ lastIsDot (pyStrip d) = false ∧
    '.' ∈ pyStrip d ∧ domainPatternMatch (pyStrip d) = true := by
  unfold _is_valid_domain_format at h
  split at h
  · cases h
  · split at h
    · cases h
    · next hlen =>
      split at h
      · cases h
      · next hdot =>
        split at h
        · cases h
        · next hmem =>
          push_neg at hlen hmem
          refine ⟨fun hnil => hlen.1 (by rw [hnil]; rfl), ?_, ?_, ?_, hmem, h⟩
          · have h2 := hlen.2
            unfold MAX_DOMAIN_LENGTH at h2
            omega
          · rcases Bool.eq_false_or_eq_true (headIsDot (pyStrip d)) with hb | hb
            · exact absurd (Or.inl hb) hdot
            · exact hb
          · rcases Bool.eq_false_or_eq_true (lastIsDot (pyStrip d)) with hb | hb
            · exact absurd (Or.inr hb) hdot
            · exact hb

theorem valid_format_lower (d : Chars) :
    _is_valid_domain_format (d.map pyLowerChar) = _is_valid_domain_format d := by
  simp only [_is_valid_domain_format, pyStrip_map_lower, List.length_map,
    headIsDot_map, lastIsDot_map, domainPatternMatch_map, List.map_eq_nil_iff,
    mem_dot_map]

/- Flag comparison helper for the enhanced entry point. -/

theorem enhanced_flag_ne {o : Option Chars}
    (h : pyUpper (o.getD []) ≠ chars "AVAILABLE") :
    o.getD (chars "UNAVAILABLE") ≠ chars "AVAILABLE" := by
  cases o with
  | none => decide
  | some v =>
    intro hv
    exact h (by
      rw [show (some v).getD ([] : Chars) = v from rfl,
        show v = chars "AVAILABLE" from hv]
      decide)


/- ----------------------------------------------------------------- -/
/- Concrete records used by counterexamples and witnesses            -/
/- ----------------------------------------------------------------- -/

/-- Parsed response carrying the unregistered-domain signal together with
an explicitly unavailable registry flag. -/
def recMissingUnavailable : WhoisRecord :=
  ⟨some (chars "MISSING_WHOIS_DATA"), none, some (chars "UNAVAILABLE"),
   StatusField.missing, StatusField.missing⟩

/-- Parsed response with an unavailable registry flag and a problematic
status token. -/
def recUnavailableHold : WhoisRecord :=
  ⟨none, none, some (chars "UNAVAILABLE"),
   StatusField.listF [chars "clientHold"], StatusField.missing⟩

/-- Parsed response with the unregistered-domain signal on the main record
and a data error on the registry data. -/
def recMissingRegNoData : WhoisRecord :=
  ⟨some (chars "MISSING_WHOIS_DATA"), some (chars "NO_DATA"), none,
   StatusField.missing, StatusField.missing⟩

/-- Clean available response. -/
def recAvailOk : WhoisRecord :=
  ⟨none, none, some (chars "AVAILABLE"), StatusField.missing, StatusField.missing⟩

/-- Response with a non-AVAILABLE registry flag. -/
def recTaken : WhoisRecord :=
  ⟨none, none, some (chars "TAKEN"), StatusField.missing, StatusField.missing⟩

/-- Response with a main-record data error. -/
def recNoData : WhoisRecord :=
  ⟨some (chars "NO_DATA"), none, none, StatusField.missing, StatusField.missing⟩

/-- Unregistered-domain signal together with a flag and status list that
would otherwise classify as unavailable. -/
def recMissingHold : WhoisRecord :=
  ⟨some (chars "MISSING_WHOIS_DATA"), none, some (chars "UNAVAILABLE"),
   StatusField.listF [chars "clientHold"], StatusField.missing⟩

/- ----------------------------------------------------------------- -/
/- Claims                                                             -/
/- ----------------------------------------------------------------- -/

/-- C1 (counterexample): on a parsed response carrying
`dataError = MISSING_WHOIS_DATA` with registry flag `UNAVAILABLE`,
`check_domain_status_detailed` reports truly available even though the
registry availability flag does not say available, so
`is_truly_available == (flag says available) AND (problematic empty)`
fails as stated. -/
theorem C1_counterexample :
    ¬ ((check_domain_status_core recMissingUnavailable).1 = true ↔
      (pyUpper (recMissingUnavailable.domainAvailability.getD []) =
          chars "AVAILABLE" ∧
        (check_domain_status_core recMissingUnavailable).2 = [])) := by
  decide

/-- C1 (amended): for every parsed response that does not carry the
unregistered-domain signal (`dataError = MISSING_WHOIS_DATA`), the verdict
of both entry points satisfies
`is_truly_available == (registry flag says available) AND
(problematic_statuses is empty)`, with each entry point reading the flag
the way its code does. -/
theorem C1_verdict_formula : ∀ (d : Chars) (r : WhoisRecord),
    r.dataError ≠ some (chars "MISSING_WHOIS_DATA") →
    ((check_domain_status_core r).1 = true ↔
      (pyUpper (r.domainAvailability.getD []) = chars "AVAILABLE" ∧
        (check_domain_status_core r).2 = [])) ∧
    ((get_enhanced_domain_info_core d r).is_available = true ↔
      (r.domainAvailability.getD (chars "UNAVAILABLE") = chars "AVAILABLE" ∧
        (get_enhanced_domain_info_core d r).problematic_statuses = [])) := by
  intro d r h
  constructor
  · unfold check_domain_status_core
    rw [if_neg h]
    split
    · simp
    · split
      · simp
      · split
        · next hav => simp [hav]
        · next hav =>
          rw [not_ne_iff] at hav
          simp [hav, List.length_eq_zero]
  · unfold get_enhanced_domain_info_core
    rw [if_neg h]
    split
    · simp
    · split
      · simp
      · simp [List.length_eq_zero]

/-- C1 (witness): the amended formula instantiated on a clean available
response. -/
theorem C1_witness :
    ((check_domain_status_core recAvailOk).1 = true ↔
      (pyUpper (recAvailOk.domainAvailability.getD []) = chars "AVAILABLE" ∧
        (check_domain_status_core recAvailOk).2 = [])) :=
  (C1_verdict_formula (chars "example.com") recAvailOk (by decide)).1

/-- C2 (counterexample): on a parsed response whose registry flag is
`UNAVAILABLE` (case-insensitively different from `AVAILABLE`) and whose
status list contains `clientHold`, `get_enhanced_domain_info` still runs
the status classification and returns a non-empty problematic list,
contradicting the claim that classification is skipped with an empty list
for both entry points. -/
theorem C2_counterexample :
    pyUpper (recUnavailableHold.domainAvailability.getD []) ≠ chars "AVAILABLE" ∧
    (get_enhanced_domain_info_core (chars "example.com")
        recUnavailableHold).problematic_statuses = [chars "clientHold"] := by
  decide

/-- C2 (amended): when the registry flag does not case-insensitively equal
`AVAILABLE` (and no data-error or unregistered signal is present),
`check_domain_status_detailed` reports not available with an empty
problematic list without consulting the status fields; but
`get_enhanced_domain_info` only reports not available: it still runs the
classification and returns the problematic list computed from the status
fields. -/
theorem C2_unavailable_flag : ∀ (d : Chars) (r : WhoisRecord) (s t : StatusField),
    r.dataError ≠ some (chars "MISSING_WHOIS_DATA") →
    r.dataError ≠ some (chars "NO_DATA") →
    r.dataError ≠ some (chars "INCOMPLETE_DATA") →
    r.registryDataError ≠ some (chars "NO_DATA") →
    r.registryDataError ≠ some (chars "INCOMPLETE_DATA") →
    pyUpper (r.domainAvailability.getD []) ≠ chars "AVAILABLE" →
    check_domain_status_core r = (false, []) ∧
    check_domain_status_core
      ⟨r.dataError, r.registryDataError, r.domainAvailability, s, t⟩ =
      (false, []) ∧
    (get_enhanced_domain_info_core d r).is_available = false ∧
    (get_enhanced_domain_info_core d r).problematic_statuses =
      _extract_problematic_statuses
        (statusTokens r.status ++ statusTokens r.registryStatus) := by
  intro d r s t h1 h2 h3 h4 h5 h6
  refine ⟨?_, ?_, ?_, ?_⟩
  · unfold check_domain_status_core
    rw [if_neg h1, if_neg fun hor => hor.elim h2 h3,
      if_neg fun hor => hor.elim h4 h5, if_pos h6]
  · unfold check_domain_status_core
    rw [if_neg h1, if_neg fun hor => hor.elim h2 h3,
      if_neg fun hor => hor.elim h4 h5, if_pos h6]
  · unfold get_enhanced_domain_info_core
    rw [if_neg h1, if_neg fun hor => hor.elim h2 h3,
      if_neg fun hor => hor.elim h4 h5]
    show (decide (r.domainAvailability.getD (chars "UNAVAILABLE") =
        chars "AVAILABLE") && _) = false
    rw [decide_eq_false (enhanced_flag_ne h6), Bool.false_and]
  · unfold get_enhanced_domain_info_core
    rw [if_neg h1, if_neg fun hor => hor.elim h2 h3,
      if_neg fun hor => hor.elim h4 h5]

/-- C2 (witness): the amended statement instantiated on a response whose
flag is `TAKEN`. -/
theorem C2_witness : check_domain_status_core recTaken = (false, []) :=
  (C2_unavailable_flag (chars "example.com") recTaken StatusField.missing
    StatusField.missing (by decide) (by decide) (by decide) (by decide)
    (by decide) (by decide)).1

/-- C3: a status token whose normalized form misses the exact-match set is
resolved by scanning the keyword list in its fixed order, taking the first
keyword that is a substring of the lowercased stripped token, and applying
the keyword-specific display rules (first match wins); in particular
`someWeirdLockedStatus` classifies as `Locked`. -/
theorem C3_keyword_scan :
    (∀ status : Chars, pyStrip status ≠ [] →
      normalizeStatus (pyStrip status) ∉ PROBLEMATIC_DOMAIN_STATUSES →
      tokenContribution status =
        ((PROBLEMATIC_KEYWORDS.find? fun k =>
            isSubstrB k (pyLower (pyStrip status))).map
          (keywordDisplay (pyLower (pyStrip status)))).toList) ∧
    _extract_problematic_statuses [chars "someWeirdLockedStatus"] =
      [chars "Locked"] := by
  constructor
  · intro s h1 h2
    have hs : s ≠ [] := fun he => h1 (by rw [he]; rfl)
    unfold tokenContribution
    rw [if_neg hs, if_neg h1, if_neg h2, scanKeywords_eq_find]
    cases PROBLEMATIC_KEYWORDS.find? fun k => isSubstrB k (pyLower (pyStrip s)) <;>
      rfl
  · decide

/-- C3 (witness): the keyword-scan characterization evaluated on the
claim's concrete token. -/
theorem C3_witness :
    tokenContribution (chars "someWeirdLockedStatus") =
      ((PROBLEMATIC_KEYWORDS.find? fun k =>
          isSubstrB k (pyLower (pyStrip (chars "someWeirdLockedStatus")))).map
        (keywordDisplay (pyLower (pyStrip (chars "someWeirdLockedStatus"))))).toList :=
  C3_keyword_scan.1 (chars "someWeirdLockedStatus") (by decide) (by decide)

/-- C4: for every input token list, `_extract_problematic_statuses`
returns a duplicate-free list with the same membership as the raw
per-token resolutions, listed in strictly increasing order of each name's
first occurrence across the tokens (`Pairwise` on the first-occurrence
index); for all tokens `A`, `B` resolving to distinct names,
`[A, B, A]` yields `[name A, name B]`; duplicates of `pendingDelete`
collapse to one entry. -/
theorem C4_dedup_first_seen :
    (∀ ts : List Chars,
      (_extract_problematic_statuses ts).Nodup ∧
      (∀ x, x ∈ _extract_problematic_statuses ts ↔
        x ∈ (ts.map tokenContribution).flatten) ∧
      (_extract_problematic_statuses ts).Pairwise fun x y =>
        firstPos ((ts.map tokenContribution).flatten) x <
          firstPos ((ts.map tokenContribution).flatten) y) ∧
    (∀ A B nA nB : Chars, nA ≠ nB →
      tokenContribution A = [nA] → tokenContribution B = [nB] →
      _extract_problematic_statuses [A, B, A] = [nA, nB]) ∧
    _extract_problematic_statuses
      [chars "pendingDelete", chars "PendingDelete", chars "pending-delete"] =
      [chars "pendingDelete"] ∧
    _extract_problematic_statuses
      [chars "clientHold", chars "pendingDelete", chars "clientHold"] =
      [chars "clientHold", chars "pendingDelete"] := by
  refine ⟨fun ts => ⟨nodup_dedupFirst _, fun x => mem_dedupFirst x _,
      pairwise_dedupFirst _⟩, ?_, by decide, by decide⟩
  intro A B nA nB hne hA hB
  show dedupFirst (([A, B, A].map tokenContribution).flatten) = [nA, nB]
  rw [show ([A, B, A].map tokenContribution).flatten =
    tokenContribution A ++ (tokenContribution B ++ (tokenContribution A ++ []))
    from rfl, hA, hB]
  show dedupFirstAux [] [nA, nB, nA] = [nA, nB]
  unfold dedupFirstAux
  rw [if_neg (List.not_mem_nil nA)]
  unfold dedupFirstAux
  rw [if_neg (show nB ∉ [nA] from fun h => hne (List.mem_singleton.mp h).symm)]
  unfold dedupFirstAux
  rw [if_pos (show nA ∈ [nB, nA] from
    List.mem_cons_of_mem _ (List.mem_singleton.mpr rfl))]
  rfl

/-- C4 (witness): the universal `[A, B, A]` ordering property applied to
concrete tokens `serverHold` and `pendingDelete` with their resolved
names, all hypotheses discharged by evaluation. -/
theorem C4_witness :
    _extract_problematic_statuses
      [chars "serverHold", chars "pendingDelete", chars "serverHold"] =
      [chars "serverHold", chars "pendingDelete"] :=
  C4_dedup_first_seen.2.1 (chars "serverHold") (chars "pendingDelete")
    (chars "serverHold") (chars "pendingDelete")
    (by decide) (by decide) (by decide)

/-- C5: `check_domain_status_detailed` is total over its error taxonomy:
every non-parsed outcome (network timeout, connection/HTTP failure,
malformed JSON, unexpected exception) yields the conservative verdict
`(false, [])`, and absent or null status fields contribute no tokens.
(Totality — no exception escapes — is expressed by the embedding being a
total function.) -/
theorem C5_error_taxonomy : ∀ (domain : Chars) (o : LookupOutcome),
    ((∀ r, o ≠ LookupOutcome.parsed r) →
      check_domain_status_detailed domain o = (false, [])) ∧
    statusTokens StatusField.null = [] ∧
    statusTokens StatusField.missing = [] := by
  intro domain o
  refine ⟨fun h => ?_, rfl, rfl⟩
  cases o with
  | parsed r => exact absurd rfl (h r)
  | networkError =>
    unfold check_domain_status_detailed
    split <;> rfl
  | invalidJson =>
    unfold check_domain_status_detailed
    split <;> rfl
  | unexpectedError =>
    unfold check_domain_status_detailed
    split <;> rfl

/-- C5 (witness): a malformed-JSON outcome on a well-formed domain. -/
theorem C5_witness :
    check_domain_status_detailed (chars "example.com")
      LookupOutcome.invalidJson = (false, []) :=
  (C5_error_taxonomy (chars "example.com") LookupOutcome.invalidJson).1
    fun _ h => LookupOutcome.noConfusion h

/-- C6 (counterexample): a response carrying `NO_DATA` on `registryData`
but `MISSING_WHOIS_DATA` on the main record is reported truly available
with an empty problematic list, not as `(false, ["registryDataError"])`,
so the claim fails as stated for responses that also carry the
unregistered-domain signal. -/
theorem C6_counterexample :
    check_domain_status_core recMissingRegNoData = (true, []) ∧
    ¬ (check_domain_status_core recMissingRegNoData =
        (false, [chars "registryDataError"])) := by
  decide

/-- C6 (amended): provided the main record does not carry the
unregistered-domain signal, a data-completeness error yields not-available
with exactly the one sentinel naming the error class: `dataError` when the
signal is on the main record, `registryDataError` when it is only on the
registry data.  Holds for both entry points. -/
theorem C6_data_error_sentinels : ∀ (d : Chars) (r : WhoisRecord),
    ((r.dataError = some (chars "NO_DATA") ∨
        r.dataError = some (chars "INCOMPLETE_DATA")) →
      check_domain_status_core r = (false, [chars "dataError"]) ∧
      (get_enhanced_domain_info_core d r).is_available = false ∧
      (get_enhanced_domain_info_core d r).problematic_statuses =
        [chars "dataError"] ∧
      (get_enhanced_domain_info_core d r).has_error = true) ∧
    (r.dataError ≠ some (chars "MISSING_WHOIS_DATA") →
      r.dataError ≠ some (chars "NO_DATA") →
      r.dataError ≠ some (chars "INCOMPLETE_DATA") →
      (r.registryDataError = some (chars "NO_DATA") ∨
        r.registryDataError = some (chars "INCOMPLETE_DATA")) →
      check_domain_status_core r = (false, [chars "registryDataError"]) ∧
      (get_enhanced_domain_info_core d r).is_available = false ∧
      (get_enhanced_domain_info_core d r).problematic_statuses =
        [chars "registryDataError"] ∧
      (get_enhanced_domain_info_core d r).has_error = true) := by
  intro d r
  constructor
  · intro hda
    have hne : r.dataError ≠ some (chars "MISSING_WHOIS_DATA") := by
      rcases hda with h | h <;> rw [h] <;> decide
    refine ⟨?_, ?_, ?_, ?_⟩
    · unfold check_domain_status_core
      rw [if_neg hne, if_pos hda]
    · unfold get_enhanced_domain_info_core
      rw [if_neg hne, if_pos hda]
    · unfold get_enhanced_domain_info_core
      rw [if_neg hne, if_pos hda]
    · unfold get_enhanced_domain_info_core
      rw [if_neg hne, if_pos hda]
  · intro h1 h2 h3 hreg
    refine ⟨?_, ?_, ?_, ?_⟩
    · unfold check_domain_status_core
      rw [if_neg h1, if_neg fun hor => hor.elim h2 h3, if_pos hreg]
    · unfold get_enhanced_domain_info_core
      rw [if_neg h1, if_neg fun hor => hor.elim h2 h3, if_pos hreg]
    · unfold get_enhanced_domain_info_core
      rw [if_neg h1, if_neg fun hor => hor.elim h2 h3, if_pos hreg]
    · unfold get_enhanced_domain_info_core
      rw [if_neg h1, if_neg fun hor => hor.elim h2 h3, if_pos hreg]

/-- C6 (witness): the sentinel behavior on a concrete `NO_DATA` response. -/
theorem C6_witness :
    check_domain_status_core recNoData = (false, [chars "dataError"]) :=
  ((C6_data_error_sentinels (chars "example.com") recNoData).1 (Or.inl rfl)).1

/-- C7: a response carrying the unregistered-domain signal
(`dataError = MISSING_WHOIS_DATA`) short-circuits before the
availability-flag check and the status classification: both entry points
report truly available with an empty problematic list regardless of the
flag and the status fields. -/
theorem C7_unregistered_short_circuit : ∀ (d : Chars) (r : WhoisRecord),
    r.dataError = some (chars "MISSING_WHOIS_DATA") →
    check_domain_status_core r = (true, []) ∧
    (get_enhanced_domain_info_core d r).is_available = true ∧
    (get_enhanced_domain_info_core d r).problematic_statuses = [] ∧
    (get_enhanced_domain_info_core d r).has_error = false := by
  intro d r h
  refine ⟨?_, ?_, ?_, ?_⟩
  · unfold check_domain_status_core
    rw [if_pos h]
  · unfold get_enhanced_domain_info_core
    rw [if_pos h]
  · unfold get_enhanced_domain_info_core
    rw [if_pos h]
  · unfold get_enhanced_domain_info_core
    rw [if_pos h]

/-- C7 (witness): the short-circuit on a record whose flag is
`UNAVAILABLE` and whose status list contains `clientHold`. -/
theorem C7_witness :
    check_domain_status_core recMissingHold = (true, []) ∧
    (get_enhanced_domain_info_core (chars "x.com") recMissingHold).is_available
      = true ∧
    (get_enhanced_domain_info_core (chars "x.com")
        recMissingHold).problematic_statuses = [] ∧
    (get_enhanced_domain_info_core (chars "x.com") recMissingHold).has_error
      = false :=
  C7_unregistered_short_circuit (chars "x.com") recMissingHold rfl

/-- C8 (counterexample): the WHOIS-client validator accepts
`"a." ++ 64 × 'b'`, whose final (TLD) label has 64 characters: the regex
bounds non-final labels at 63 characters but leaves the TLD unbounded, so
"each dot-separated label is 1-63 characters" and "rejects any label over
63 characters" fail as stated. -/
theorem C8_counterexample :
    _is_valid_domain_format (chars "a." ++ List.replicate 64 'b') = true ∧
    ∃ p ∈ splitOn '.' (chars "a." ++ List.replicate 64 'b'), 63 < p.length := by
  constructor
  · decide
  · decide

/-- C8 (amended): `_is_valid_domain_format` is a total boolean function
that returns true only when the trimmed input is non-empty, at most 253
characters, has no leading or trailing dot, contains a dot, every
non-final label is 1-63 alphanumerics-with-interior-hyphens starting and
ending alphanumeric, and the final label is letters only of length at
least 2 (bounded only by the total cap, not by 63); it rejects any string
without a dot and any string starting or ending with a dot, and accepts
domains identically regardless of letter case.  `_is_valid_domain`
(domain_management.py) additionally rejects any label over 63 characters
and caps the total length at 40. -/
theorem C8_validator : ∀ d : Chars,
    (_is_valid_domain_format d = true →
      pyStrip d ≠ [] ∧ (pyStrip d).length ≤ 253 ∧
      headIsDot (pyStrip d) = false ∧ lastIsDot (pyStrip d) = false ∧
      '.' ∈ pyStrip d ∧
      (∀ p ∈ (splitOn '.' (pyStrip d)).dropLast, labelOk p = true) ∧
      (∃ t, (splitOn '.' (pyStrip d)).getLast? = some t ∧ tldOk t = true)) ∧
    ('.' ∉ d → _is_valid_domain_format d = false) ∧
    (headIsDot d = true → _is_valid_domain_format d = false) ∧
    (lastIsDot d = true → _is_valid_domain_format d = false) ∧
    _is_valid_domain_format (d.map pyLowerChar) = _is_valid_domain_format d ∧
    ((∃ p ∈ splitOn '.' d, 63 < p.length) → _is_valid_domain d = false) ∧
    (_is_valid_domain d = true → d.length ≤ 40) := by
  intro d
  refine ⟨?_, ?_, ?_, ?_, valid_format_lower d, ?_, ?_⟩
  · intro h
    obtain ⟨hne, hlen, hh, hl, hdotmem, hpat⟩ := valid_format_sound h
    obtain ⟨_, hlab, htld⟩ := domainPatternMatch_sound hpat
    exact ⟨hne, hlen, hh, hl, hdotmem, hlab, htld⟩
  · intro hnd
    cases hv : _is_valid_domain_format d with
    | false => rfl
    | true =>
      exact absurd (mem_of_mem_pyStrip (valid_format_sound hv).2.2.2.2.1) hnd
  · intro hhd
    cases hv : _is_valid_domain_format d with
    | false => rfl
    | true =>
      have hf := (valid_format_sound hv).2.2.1
      rw [headIsDot_pyStrip hhd] at hf
      cases hf
  · intro hld
    cases hv : _is_valid_domain_format d with
    | false => rfl
    | true =>
      have hf := (valid_format_sound hv).2.2.2.1
      rw [lastIsDot_pyStrip hld] at hf
      cases hf
  · rintro ⟨p, hp, hlen⟩
    unfold _is_valid_domain
    split
    · rfl
    split
    · rfl
    split
    · rfl
    split
    · rfl
    refine Bool.eq_false_iff.mpr fun hall => ?_
    have h2 := List.all_eq_true.mp hall p hp
    simp only [Bool.and_eq_true, decide_eq_true_eq] at h2
    omega
  · intro hv
    unfold _is_valid_domain at hv
    split at hv
    · cases hv
    · split at hv
      · cases hv
      · next hlen => omega

/-- C8 (witness): rejection of a dot-free string via the amended
theorem. -/
theorem C8_witness : _is_valid_domain_format (chars "nodomain") = false :=
  (C8_validator (chars "nodomain")).2.1 (by decide)

/-- C9 (counterexample): `normalize` is not idempotent: on `"a\t-"` the
hyphen removal exposes a trailing tab, so a second normalization strips
further (`normalize ∘ normalize` gives `"a"` but `normalize` gives
`"a\t"`). -/
theorem C9_counterexample :
    normalizeRaw (normalizeRaw (chars "a\t-")) ≠ normalizeRaw (chars "a\t-") := by
  decide

/-- C9 (amended): re-normalizing equals trimming the normalized form:
`normalize (normalize x) = trim (normalize x)` for every token `x`; hence
`normalize` is idempotent exactly on the tokens whose normalized form
carries no leading or trailing whitespace — in particular on every token
already in canonical form. -/
theorem C9_normalize_trim : ∀ x : Chars,
    normalizeRaw (normalizeRaw x) = pyStrip (normalizeRaw x) := by
  intro x
  show normalizeStatus (pyStrip (normalizeRaw x)) = pyStrip (normalizeRaw x)
  apply normalizeStatus_of_canonical
  · intro c hc
    exact mem_normalizeStatus_not_upper (mem_of_mem_pyStrip hc)
  · intro hc
    exact mem_normalizeStatus_no_paren (mem_of_mem_pyStrip hc)
  · intro c hc
    have h := mem_normalizeStatus (mem_of_mem_pyStrip hc)
    exact ⟨h.2.1, h.2.2.1, h.2.2.2⟩

/-- C10: in `_parse_status_string` the URL filter applies to each
whitespace-split token before parentheses are stripped: a token is
excluded exactly when it starts with `http` or becomes empty after
stripping `()`, order follows the input; consequently a URL enclosed in
parentheses survives as a token with the parentheses stripped. -/
theorem C10_parse_url_filter :
    (∀ s : Chars, _parse_status_string s =
      (splitWs s).filterMap fun part =>
        if isPrefixOfB (chars "http") part then none
        else if stripParens part = [] then none else some (stripParens part)) ∧
    _parse_status_string (chars "(https://www.icann.org/epp#clientHold)") =
      [chars "https://www.icann.org/epp#clientHold"] := by
  constructor
  · intro s
    unfold _parse_status_string
    by_cases hs : s = []
    · rw [if_pos hs, hs]
      rfl
    · rw [if_neg hs]
      exact parseLoop_eq _ fun t ht => by
        have h2 := splitWs_tokens ht
        rw [pyStrip_of_noWs h2.2]
        exact h2.1
  · decide
